import Mathlib

/-!
Verification of the artifact-to-MCP-generator core pipeline
(internal/ir/schema.go, internal/ir/validation.go, the EVM ABI parser
in internal/parser, and the tool-exposure logic of
internal/template/typescript.go) against its specification.

Strings are modelled as Lean `String`s; Go byte indices coincide with
character indices on the ASCII inputs the code manipulates.  Go maps
(`map[string]int`, `map[string]interface{}`) are modelled as association
lists with replace-or-append insertion; Go map iteration order is never
observed by the modelled code.  Fallible Go functions returning
`(T, error)` are modelled as `Except String T`.
-/

namespace MCPGen

/-! ### Go standard-library fragments (strings, strconv, unicode) -/

/-- Go `unicode.IsSpace`: the Unicode White_Space property
(full table: Latin-1 cases plus the listed code points). -/
def goIsSpace (c : Char) : Bool :=
  c.toNat == 9 || c.toNat == 10 || c.toNat == 11 || c.toNat == 12 ||
  c.toNat == 13 || c.toNat == 32 || c.toNat == 0x85 || c.toNat == 0xA0 ||
  c.toNat == 0x1680 || (0x2000 ≤ c.toNat && c.toNat ≤ 0x200A) ||
  c.toNat == 0x2028 || c.toNat == 0x2029 || c.toNat == 0x202F ||
  c.toNat == 0x205F || c.toNat == 0x3000

/-- Go `strings.TrimSpace`: drop leading and trailing White_Space. -/
def goTrimSpace (s : String) : String :=
  ⟨((s.data.dropWhile goIsSpace).reverse.dropWhile goIsSpace).reverse⟩

/-- Go `strings.HasPrefix`. -/
def strStartsWith (s pre : String) : Bool :=
  List.isPrefixOf pre.data s.data

/-- Go `strings.HasSuffix`. -/
def strEndsWith (s suf : String) : Bool :=
  List.isSuffixOf suf.data s.data

/-- Index (0-based) of the first occurrence of `pat` in `l`, if any. -/
def listIndexOf? (l pat : List Char) : Option Nat :=
  if List.isPrefixOf pat l then some 0
  else
    match l with
    | [] => none
    | _ :: tl => (listIndexOf? tl pat).map (· + 1)

/-- Go `strings.Index`: first occurrence of `sub` in `s`, `-1` if absent. -/
def strIndex (s sub : String) : Int :=
  match listIndexOf? s.data sub.data with
  | some n => (n : Int)
  | none => -1

/-- Go `strings.Contains`. -/
def strContains (s sub : String) : Bool :=
  (listIndexOf? s.data sub.data).isSome

/-- Go slice expression `s[a:b]` (clamped instead of panicking on
out-of-range indices; the modelled code only slices in range). -/
def strSlice (s : String) (a b : Nat) : String :=
  ⟨(s.data.drop a).take (b - a)⟩

/-- Go `strconv.Atoi`: optional sign, decimal digits, 64-bit range check. -/
def goAtoi (s : String) : Option Int :=
  let (neg, ds) :=
    match s.data with
    | '-' :: rest => (true, rest)
    | '+' :: rest => (false, rest)
    | l => (false, l)
  if ds = [] then none
  else if ds.all (fun c => '0' ≤ c && c ≤ '9') then
    let n : Nat := ds.foldl (fun a c => 10 * a + (c.toNat - '0'.toNat)) 0
    let v : Int := if neg then -(n : Int) else (n : Int)
    if -(2 ^ 63) ≤ v ∧ v ≤ 2 ^ 63 - 1 then some v else none
  else none

/-- ASCII fragment of Go `strings.ToUpper` (the template's `upper`
function); the modelled identifiers are ASCII. -/
def goToUpper (s : String) : String :=
  ⟨s.data.map Char.toUpper⟩

/-- Lookup in an association list modelling a Go map. -/
def assocLookup {α : Type} : List (String × α) → String → Option α
  | [], _ => none
  | (k, v) :: rest, key => if k = key then some v else assocLookup rest key

/-- Insertion (`m[k] = v`) in an association list modelling a Go map:
replace the binding if present, append otherwise. -/
def assocSet {α : Type} : List (String × α) → String → α → List (String × α)
  | [], key, v => [(key, v)]
  | (k, w) :: rest, key, v =>
    if k = key then (k, v) :: rest else (k, w) :: assocSet rest key v

/-! ### IR model (internal/ir/schema.go) -/

/-- A chain-specific attribute value stored in a `map[string]interface{}`;
the code only ever stores booleans, ints and strings. -/
inductive CVal where
  | b (v : Bool)
  | i (v : Int)
  | s (v : String)
deriving DecidableEq, Repr

/-- `map[string]interface{}` chain-specific attribute bag. -/
abbrev ChainData := List (String × CVal)

/-- Go `type StateMutability string`. -/
abbrev StateMutability := String

def Pure : StateMutability := "pure"
def View : StateMutability := "view"
def Nonpayable : StateMutability := "nonpayable"
def Payable : StateMutability := "payable"

/-- Go `type Visibility string`. -/
abbrev Visibility := String

def External : Visibility := "external"
def Public : Visibility := "public"
def Internal : Visibility := "internal"
def Private : Visibility := "private"

mutual
/-- `ir.ParameterType`: recursive type descriptor. -/
inductive ParameterType where
  | mk (baseType : String) (isArray : Bool) (arraySize : Int) (isMap : Bool)
       (mapKeyType : String) (components : List Parameter)
       (chainData : ChainData)

/-- `ir.Parameter`: a function parameter (input or output). -/
inductive Parameter where
  | mk (name : String) (type : ParameterType) (description : String)
end

def ParameterType.baseType : ParameterType → String
  | .mk v _ _ _ _ _ _ => v
def ParameterType.isArray : ParameterType → Bool
  | .mk _ v _ _ _ _ _ => v
def ParameterType.arraySize : ParameterType → Int
  | .mk _ _ v _ _ _ _ => v
def ParameterType.isMap : ParameterType → Bool
  | .mk _ _ _ v _ _ _ => v
def ParameterType.mapKeyType : ParameterType → String
  | .mk _ _ _ _ v _ _ => v
def ParameterType.components : ParameterType → List Parameter
  | .mk _ _ _ _ _ v _ => v
def ParameterType.chainData : ParameterType → ChainData
  | .mk _ _ _ _ _ _ v => v

def Parameter.name : Parameter → String
  | .mk v _ _ => v
def Parameter.type : Parameter → ParameterType
  | .mk _ v _ => v
def Parameter.description : Parameter → String
  | .mk _ _ v => v

/-- `ir.EventParameter`. -/
structure EventParameter where
  name : String := ""
  type : ParameterType
  indexed : Bool := false

/-- `ir.Function` (field defaults are the Go zero values). -/
structure Function where
  name : String := ""
  description : String := ""
  signature : String := ""
  selector : String := ""
  inputs : List Parameter := []
  outputs : List Parameter := []
  stateMutability : StateMutability := ""
  visibility : Visibility := ""
  isConstructor : Bool := false
  isFallback : Bool := false
  isReceive : Bool := false
  chainData : ChainData := []

/-- `ir.Event`. -/
structure Event where
  name : String := ""
  description : String := ""
  signature : String := ""
  parameters : List EventParameter := []
  chainData : ChainData := []

/-- `ir.ContractError`. -/
structure ContractError where
  name : String := ""
  description : String := ""
  parameters : List Parameter := []

/-- `ir.CustomType`. -/
structure CustomType where
  name : String := ""
  description : String := ""
  fields : List Parameter := []

/-- `ir.SourceInfo`. -/
structure SourceInfo where
  language : String := ""
  compiler : String := ""
  sourceURL : String := ""

/-- `ir.ContractMetadata`. -/
structure ContractMetadata where
  name : String := ""
  description : String := ""
  address : String := ""
  chain : String := ""
  chainData : ChainData := []
  source : Option SourceInfo := none

/-- `ir.ContractIR`. -/
structure ContractIR where
  metadata : ContractMetadata
  functions : List Function := []
  events : List Event := []
  errors : List ContractError := []
  types : List CustomType := []

/-! ### IR validator (internal/ir/validation.go) -/

/-- `ir.ValidationError`. -/
structure ValidationError where
  field : String
  message : String
deriving DecidableEq, Repr

/-- `validateStateMutability` (returns the error message, if any). -/
def validateStateMutability (sm : StateMutability) : Option String :=
  if sm = Pure ∨ sm = View ∨ sm = Nonpayable ∨ sm = Payable then none
  else if sm = "" then some "state mutability is required"
  else some ("invalid state mutability: " ++ sm)

/-- `validateVisibility` (returns the error message, if any). -/
def validateVisibility (v : Visibility) : Option String :=
  if v = External ∨ v = Public ∨ v = Internal ∨ v = Private then none
  else some ("invalid visibility: " ++ v)

mutual
/-- `(*ir.ParameterType).Validate`. -/
def ParameterType.Validate : ParameterType → List ValidationError
  | .mk baseType isArray arraySize isMap mapKeyType comps _ =>
    (if goTrimSpace baseType = "" then
      [⟨"BaseType", "base type is required"⟩] else []) ++
    (if isArray ∧ arraySize < 0 then
      [⟨"ArraySize", "array size must be non-negative (0 for dynamic arrays)"⟩]
     else []) ++
    (if isMap ∧ goTrimSpace mapKeyType = "" then
      [⟨"MapKeyType", "map key type is required for maps"⟩] else []) ++
    validateParamsIndexed "Components" 0 comps

/-- the shared `for i, x := range` / `fieldPrefix + "." + err.Field`
loop shape used for every indexed `[]Parameter` field
(`Components[%d]`, `Inputs[%d]`, `Outputs[%d]`, `Parameters[%d]`,
`Fields[%d]`). -/
def validateParamsIndexed (label : String) (i : Nat) :
    List Parameter → List ValidationError
  | [] => []
  | p :: rest =>
    ((Parameter.Validate p).map
      (fun e => ⟨label ++ "[" ++ toString i ++ "]." ++ e.field, e.message⟩)) ++
    validateParamsIndexed label (i + 1) rest

/-- `(*ir.Parameter).Validate`. -/
def Parameter.Validate : Parameter → List ValidationError
  | .mk _ t _ =>
    (ParameterType.Validate t).map
      (fun e => ⟨"Type." ++ e.field, e.message⟩)
end

/-- `(*ir.EventParameter).Validate`. -/
def EventParameter.Validate (p : EventParameter) : List ValidationError :=
  (if goTrimSpace p.name = "" then
    [⟨"Name", "parameter name is required"⟩] else []) ++
  (ParameterType.Validate p.type).map
    (fun e => ⟨"Type." ++ e.field, e.message⟩)

/-- the `for i, p := range e.Parameters` loop of `(*ir.Event).Validate`. -/
def validateEventParamsIndexed (i : Nat) :
    List EventParameter → List ValidationError
  | [] => []
  | p :: rest =>
    ((EventParameter.Validate p).map
      (fun e => ⟨"Parameters[" ++ toString i ++ "]." ++ e.field, e.message⟩)) ++
    validateEventParamsIndexed (i + 1) rest

/-- `(*ir.Function).Validate`. -/
def Function.Validate (f : Function) : List ValidationError :=
  (if goTrimSpace f.name = "" then
    [⟨"Name", "function name is required"⟩] else []) ++
  validateParamsIndexed "Inputs" 0 f.inputs ++
  validateParamsIndexed "Outputs" 0 f.outputs ++
  (match validateStateMutability f.stateMutability with
   | some msg => [⟨"StateMutability", msg⟩]
   | none => []) ++
  (if f.visibility ≠ "" then
    match validateVisibility f.visibility with
    | some msg => [⟨"Visibility", msg⟩]
    | none => []
   else [])

/-- `(*ir.Event).Validate`. -/
def Event.Validate (e : Event) : List ValidationError :=
  (if goTrimSpace e.name = "" then
    [⟨"Name", "event name is required"⟩] else []) ++
  validateEventParamsIndexed 0 e.parameters

/-- `(*ir.ContractError).Validate`. -/
def ContractError.Validate (e : ContractError) : List ValidationError :=
  (if goTrimSpace e.name = "" then
    [⟨"Name", "error name is required"⟩] else []) ++
  validateParamsIndexed "Parameters" 0 e.parameters

/-- `(*ir.CustomType).Validate`. -/
def CustomType.Validate (t : CustomType) : List ValidationError :=
  (if goTrimSpace t.name = "" then
    [⟨"Name", "type name is required"⟩] else []) ++
  validateParamsIndexed "Fields" 0 t.fields

/-- `(*ir.SourceInfo).Validate`. -/
def SourceInfo.Validate (s : SourceInfo) : List ValidationError :=
  if goTrimSpace s.language = "" then
    [⟨"Language", "programming language is required"⟩] else []

/-- `(*ir.ContractMetadata).Validate`. -/
def ContractMetadata.Validate (m : ContractMetadata) : List ValidationError :=
  (if goTrimSpace m.name = "" then
    [⟨"Name", "contract name is required"⟩] else []) ++
  (if goTrimSpace m.chain = "" then
    [⟨"Chain", "chain identifier is required"⟩] else []) ++
  (match m.source with
   | some src =>
     (SourceInfo.Validate src).map
       (fun e => ⟨"Source." ++ e.field, e.message⟩)
   | none => [])

/-- the `for i, x := range` loops of `(*ir.ContractIR).Validate`
(`Functions[%d]`, `Events[%d]`, `Errors[%d]`, `Types[%d]`). -/
def validateListIndexed {α : Type} (label : String)
    (validate : α → List ValidationError) (i : Nat) :
    List α → List ValidationError
  | [] => []
  | x :: rest =>
    ((validate x).map
      (fun e => ⟨label ++ "[" ++ toString i ++ "]." ++ e.field, e.message⟩)) ++
    validateListIndexed label validate (i + 1) rest

/-- `(*ir.ContractIR).Validate`. -/
def ContractIR.Validate (c : ContractIR) : List ValidationError :=
  ContractMetadata.Validate c.metadata ++
  validateListIndexed "Functions" Function.Validate 0 c.functions ++
  validateListIndexed "Events" Event.Validate 0 c.events ++
  validateListIndexed "Errors" ContractError.Validate 0 c.errors ++
  validateListIndexed "Types" CustomType.Validate 0 c.types

/-! ### EVM ABI parser (internal/parser, package evm) -/

/-- `evm.ABIInput`: an ABI input/output parameter (JSON-decoded; a JSON
`null`/absent `components` decodes to the empty list). -/
inductive ABIInput where
  | mk (name : String) (type : String) (components : List ABIInput)
       (indexed : Bool)

def ABIInput.name : ABIInput → String
  | .mk v _ _ _ => v
def ABIInput.type : ABIInput → String
  | .mk _ v _ _ => v
def ABIInput.components : ABIInput → List ABIInput
  | .mk _ _ v _ => v
def ABIInput.indexed : ABIInput → Bool
  | .mk _ _ _ v => v

/-- `evm.ABIItem` (field defaults are the Go zero values taken by absent
JSON fields). -/
structure ABIItem where
  type : String := ""
  name : String := ""
  inputs : List ABIInput := []
  outputs : List ABIInput := []
  stateMutability : String := ""
  anonymous : Bool := false
  constant : Bool := false
  payable : Bool := false

/-- `evm.ABIParser`: tracks declared function names for overload handling. -/
structure ABIParser where
  functionSignatures : List (String × Int)

/-- `evm.NewABIParser`: empty overload-tracking map. -/
def NewABIParser : ABIParser := ⟨[]⟩

/-- `evm.buildFunctionSignature`. -/
def buildFunctionSignature (name : String) (inputs : List ABIInput) : String :=
  name ++ "(" ++ String.intercalate "," (inputs.map ABIInput.type) ++ ")"

/-- `evm.buildEventSignature`. -/
def buildEventSignature (name : String) (inputs : List ABIInput) : String :=
  name ++ "(" ++ String.intercalate "," (inputs.map ABIInput.type) ++ ")"

/-- `evm.buildErrorSignature`. -/
def buildErrorSignature (name : String) (inputs : List ABIInput) : String :=
  name ++ "(" ++ String.intercalate "," (inputs.map ABIInput.type) ++ ")"

mutual
/-- `(*evm.ABIParser).parseParameterType` (the receiver is unused in Go
and omitted here).  The Go method mutates a `paramType` value field by
field; here the successive field values are threaded through `let`s in
the same order. -/
def parseParameterType (typeStr : String) (components : List ABIInput) :
    Except String ParameterType :=
  -- step 1: array detection, size extraction, base-type extraction
  let isArrayFlag := strEndsWith typeStr "[]" || strContains typeStr "["
  let step1 : Except String (Int × String) :=
    if isArrayFlag then
      if strContains typeStr "[" && !strEndsWith typeStr "[]" then
        let start := strIndex typeStr "["
        let stop := strIndex typeStr "]"
        if start ≠ -1 ∧ stop ≠ -1 then
          let sizeStr := strSlice typeStr (start.toNat + 1) stop.toNat
          match goAtoi sizeStr with
          | none => .error ("invalid array size: " ++ sizeStr)
          | some size => .ok (size, strSlice typeStr 0 start.toNat)
        else .ok (0, strSlice typeStr 0 start.toNat)
      else .ok (0, strSlice typeStr 0 (typeStr.data.length - 2))
    else .ok (0, typeStr)
  match step1 with
  | .error e => .error e
  | .ok (arraySize, baseType0) =>
    -- tuple (struct) handling
    let tupleStep : Except String (List Parameter × ChainData) :=
      if baseType0 = "tuple" ∧ ¬components.isEmpty then
        match parseParameters components with
        | .error e => .error e
        | .ok componentParams =>
          let typeDesc := "\x7b" ++
            String.intercalate ", " (componentParams.map (fun comp =>
              let compTypeStr := ParameterType.baseType comp.type ++
                (if ParameterType.isArray comp.type then
                  (if ParameterType.arraySize comp.type > 0 then
                    "[" ++ toString (ParameterType.arraySize comp.type) ++ "]"
                   else "[]")
                 else "")
              comp.name ++ ": " ++ compTypeStr)) ++ "\x7d"
          .ok (componentParams,
               [("isTuple", CVal.b true), ("typeDescription", CVal.s typeDesc)])
      else .ok ([], [])
    match tupleStep with
    | .error e => .error e
    | .ok (comps, cd0) =>
      -- mapping(K => V) detection
      let (isMapFlag, mapKeyType, baseType1) :=
        if strStartsWith baseType0 "mapping(" then
          let keyEnd := strIndex baseType0 "=>"
          if keyEnd ≠ -1 then
            let keyStart : Nat := ("mapping(" : String).data.length
            (true,
             goTrimSpace (strSlice baseType0 keyStart keyEnd.toNat),
             goTrimSpace (strSlice baseType0 (keyEnd.toNat + 2)
               (baseType0.data.length - 1)))
          else (true, "", baseType0)
        else (false, "", baseType0)
      -- array-specific chain metadata
      let cd1 :=
        if isArrayFlag then
          let cd := assocSet cd0 "isArray" (CVal.b true)
          if arraySize > 0 then
            assocSet (assocSet cd "isFixedArray" (CVal.b true))
              "arraySize" (CVal.i arraySize)
          else assocSet cd "isDynamicArray" (CVal.b true)
        else cd0
      .ok (.mk baseType1 isArrayFlag arraySize isMapFlag mapKeyType comps cd1)

/-- `(*evm.ABIParser).parseParameters` (receiver unused, omitted). -/
def parseParameters : List ABIInput → Except String (List Parameter)
  | [] => .ok []
  | .mk name ty comps _ :: rest =>
    match parseParameterType ty comps with
    | .error e => .error e
    | .ok t =>
      match parseParameters rest with
      | .error e => .error e
      | .ok ps => .ok (.mk name t "" :: ps)
end

/-- the parameter-type rendering shared by the description synthesis in
`parseFunction` (inputs and outputs) and `parseEvent`: base type plus
array suffix, or `tuple` for structured types. -/
def renderParamTypeStr (t : ParameterType) : String :=
  if t.isArray then
    t.baseType ++
      (if t.arraySize > 0 then "[" ++ toString t.arraySize ++ "]" else "[]")
  else if t.components.length > 0 then "tuple"
  else t.baseType

/-- `(*evm.ABIParser).parseFunction`. -/
def parseFunction (p : ABIParser) (item : ABIItem) :
    Except String (Function × ABIParser) :=
  match parseParameters item.inputs with
  | .error e => .error ("failed to parse function inputs: " ++ e)
  | .ok inputs =>
  match parseParameters item.outputs with
  | .error e => .error ("failed to parse function outputs: " ++ e)
  | .ok outputs =>
    let signature := buildFunctionSignature item.name item.inputs
    -- overload handling against the functionSignatures map
    let (functionName, sigs) :=
      match assocLookup p.functionSignatures item.name with
      | some count =>
        (item.name ++ "_" ++ toString count,
         assocSet p.functionSignatures item.name (count + 1))
      | none => (item.name, assocSet p.functionSignatures item.name 1)
    -- description synthesis from the resolved IR parameters
    let description := item.name ++
      (if inputs.length > 0 then
        " - Parameters: " ++ String.intercalate ", "
          (inputs.map (fun input =>
            input.name ++ " (" ++ renderParamTypeStr input.type ++ ")"))
       else "") ++
      (if outputs.length > 0 then
        " - Returns: " ++ String.intercalate ", "
          ((outputs.enum).map (fun io =>
            (if io.2.name = "" then "output" ++ toString io.1 else io.2.name)
              ++ " (" ++ renderParamTypeStr io.2.type ++ ")"))
       else "")
    let selector := ""
    let stateMutability : StateMutability :=
      if item.stateMutability = "" then
        if item.constant then View
        else if item.payable then Payable
        else Nonpayable
      else item.stateMutability
    let cd0 : ChainData := []
    let cd1 := if item.constant then assocSet cd0 "constant" (CVal.b item.constant) else cd0
    let cd2 := if item.payable then assocSet cd1 "payable" (CVal.b item.payable) else cd1
    let cd3 :=
      if functionName ≠ item.name then
        assocSet (assocSet cd2 "originalName" (CVal.s item.name))
          "originalSignature" (CVal.s signature)
      else cd2
    .ok ({ name := functionName
           description := description
           signature := signature
           selector := selector
           inputs := inputs
           outputs := outputs
           stateMutability := stateMutability
           visibility := Public
           chainData := cd3 }, ⟨sigs⟩)

/-- the parameter loop of `(*evm.ABIParser).parseEvent` (each type
failure is wrapped as in the Go loop body). -/
def parseEventParameters : List ABIInput → Except String (List EventParameter)
  | [] => .ok []
  | .mk name ty comps idx :: rest =>
    match parseParameterType ty comps with
    | .error e => .error ("failed to parse event parameter type: " ++ e)
    | .ok t =>
      match parseEventParameters rest with
      | .error e => .error e
      | .ok ps => .ok ({ name := name, type := t, indexed := idx } :: ps)

/-- `(*evm.ABIParser).parseEvent`. -/
def parseEvent (item : ABIItem) : Except String Event :=
  match parseEventParameters item.inputs with
  | .error e => .error e
  | .ok parameters =>
    let indexedCount : Int := (item.inputs.filter (fun i => i.indexed)).length
    let signature := buildEventSignature item.name item.inputs
    let cd0 : ChainData :=
      if item.anonymous then [("anonymous", CVal.b item.anonymous)] else []
    let cd1 := assocSet cd0 "indexedCount" (CVal.i indexedCount)
    let description := item.name ++ " event" ++
      (if parameters.length > 0 then
        " - Parameters: " ++ String.intercalate ", "
          (parameters.map (fun param =>
            param.name ++ " (" ++ renderParamTypeStr param.type ++ ")" ++
              (if param.indexed then " (indexed)" else "")))
       else "")
    .ok { name := item.name
          description := description
          signature := signature
          parameters := parameters
          chainData := cd1 }

/-- `(*evm.ABIParser).parseError`. -/
def parseError (item : ABIItem) : Except String ContractError :=
  match parseParameters item.inputs with
  | .error e => .error ("failed to parse error parameters: " ++ e)
  | .ok parameters =>
    .ok { name := item.name
          description := item.name ++ " error"
          parameters := parameters }

/-- `(*evm.ABIParser).parseConstructor`. -/
def parseConstructor (item : ABIItem) : Except String Function :=
  match parseParameters item.inputs with
  | .error e => .error ("failed to parse constructor inputs: " ++ e)
  | .ok inputs =>
    let stateMutability : StateMutability :=
      if item.stateMutability = "" then
        if item.payable then Payable else Nonpayable
      else item.stateMutability
    .ok { name := "constructor"
          description := "Contract constructor"
          inputs := inputs
          outputs := []
          stateMutability := stateMutability
          isConstructor := true }

/-- `(*evm.ABIParser).parseFallback`. -/
def parseFallback (item : ABIItem) : Except String Function :=
  let stateMutability : StateMutability :=
    if item.stateMutability = "" then
      if item.payable then Payable else Nonpayable
    else item.stateMutability
  .ok { name := "fallback"
        description := "Fallback function"
        inputs := []
        outputs := []
        stateMutability := stateMutability
        isFallback := true }

/-- `(*evm.ABIParser).parseReceive`. -/
def parseReceive (_item : ABIItem) : Except String Function :=
  .ok { name := "receive"
        description := "Receive function"
        inputs := []
        outputs := []
        stateMutability := Payable  -- receive functions are always payable
        isReceive := true }

/-- the `for _, item := range abiItems` dispatch loop of
`(*evm.ABIParser).Parse`; the receiver's `functionSignatures` map is
threaded explicitly. -/
def parseItems (p : ABIParser) :
    List ABIItem →
    Except String (List Function × List Event × List ContractError × ABIParser)
  | [] => .ok ([], [], [], p)
  | item :: rest =>
    if item.type = "function" then
      match parseFunction p item with
      | .error e => .error e
      | .ok (f, p') =>
        match parseItems p' rest with
        | .error e => .error e
        | .ok (fs, es, ers, p'') => .ok (f :: fs, es, ers, p'')
    else if item.type = "event" then
      match parseEvent item with
      | .error e => .error e
      | .ok ev =>
        match parseItems p rest with
        | .error e => .error e
        | .ok (fs, es, ers, p'') => .ok (fs, ev :: es, ers, p'')
    else if item.type = "error" then
      match parseError item with
      | .error e => .error e
      | .ok ce =>
        match parseItems p rest with
        | .error e => .error e
        | .ok (fs, es, ers, p'') => .ok (fs, es, ce :: ers, p'')
    else if item.type = "constructor" then
      match parseConstructor item with
      | .error e => .error e
      | .ok f =>
        match parseItems p rest with
        | .error e => .error e
        | .ok (fs, es, ers, p'') => .ok (f :: fs, es, ers, p'')
    else if item.type = "fallback" then
      match parseFallback item with
      | .error e => .error e
      | .ok f =>
        match parseItems p rest with
        | .error e => .error e
        | .ok (fs, es, ers, p'') => .ok (f :: fs, es, ers, p'')
    else if item.type = "receive" then
      match parseReceive item with
      | .error e => .error e
      | .ok f =>
        match parseItems p rest with
        | .error e => .error e
        | .ok (fs, es, ers, p'') => .ok (f :: fs, es, ers, p'')
    else
      -- unrecognized entry kinds are skipped silently
      parseItems p rest

/-- `(*evm.ABIParser).Parse`.  The JSON decoding of the reader into
`[]ABIItem` is not modelled: `Parse` takes the decoded entry list (a
malformed artifact fails before reaching this logic). -/
def ABIParser.Parse (p : ABIParser) (items : List ABIItem)
    (metadata : ContractMetadata) : Except String ContractIR :=
  -- set chain to ethereum if not specified
  let md := if metadata.chain = "" then { metadata with chain := "ethereum" }
            else metadata
  match parseItems p items with
  | .error e => .error e
  | .ok (fs, es, ers, _) =>
    .ok { metadata := md, functions := fs, events := es, errors := ers
          types := [] }

/-! ### TypeScript renderer tool exposure
(internal/template/typescript.go, `serverTSTemplate`) -/

/-- the per-function guard used by every tool-emitting range in
`serverTSTemplate` (ToolName enum, ListTools entries, CallTool dispatch):
`not IsConstructor`, `not IsFallback`, `not IsReceive`, and
state-mutability printed as `view` or `pure`. -/
def isExposedTool (f : Function) : Bool :=
  !f.isConstructor && !f.isFallback && !f.isReceive &&
    (f.stateMutability == View || f.stateMutability == Pure)

/-- the ToolName enum members rendered by `serverTSTemplate`:
`{{$func.Name | upper}} = "{{$func.Name}}",` per exposed function, in IR
order. -/
def serverToolEnumMembers (c : ContractIR) : List (String × String) :=
  (c.functions.filter isExposedTool).map (fun f => (goToUpper f.name, f.name))

/-- the CallTool dispatch branches rendered by `serverTSTemplate`:
one `case ToolName.{{$func.Name | upper}}:` branch per exposed function,
in IR order. -/
def serverDispatchCases (c : ContractIR) : List String :=
  (c.functions.filter isExposedTool).map
    (fun f => "case ToolName." ++ goToUpper f.name ++ ":")

/-! ### Auxiliary definitions for the claims -/

/-- classifier for `Function`s produced from artifact entries of kind
`function`: `parseFunction` leaves all three special-kind flags false,
while constructor/fallback/receive entries set exactly one of them. -/
def fromFunctionEntry (f : Function) : Bool :=
  !f.isConstructor && !f.isFallback && !f.isReceive

/-- the entry kinds recognized by the `Parse` dispatch loop. -/
def recognizedABIType (t : String) : Bool :=
  t == "function" || t == "event" || t == "error" || t == "constructor" ||
    t == "fallback" || t == "receive"

/-- Modelled from the spec (§4.2 overload disambiguation), for comparison
with the parser: "The first occurrence of a name keeps it unchanged.
Each subsequent occurrence of the same declared name is renamed by
appending `_<n>` where n starts at 1 and increments per repeat."
`counts` gives, per declared name, how many occurrences were already
seen. -/
def specRenameSeq (counts : String → Nat) : List String → List String
  | [] => []
  | d :: rest =>
    let c := counts d
    (if c = 0 then d else d ++ "_" ++ toString c) ::
      specRenameSeq (fun x => if x = d then c + 1 else counts x) rest

/-! ### Concrete data used by witnesses and counterexamples -/

/-- an artifact function entry with a declared name and no parameters. -/
def funcItemNamed (n : String) : ABIItem := { type := "function", name := n }

/-- the `Function` that `parseFunction` produces for a parameterless
entry declared `declared` and emitted under `outName`. -/
def parsedFnNamed (declared outName : String) (cd : ChainData) : Function :=
  { name := outName
    description := declared
    signature := declared ++ "()"
    inputs := []
    outputs := []
    stateMutability := Nonpayable
    visibility := Public
    chainData := cd }

/-- metadata used by concrete parser runs. -/
def exMetadata : ContractMetadata := { name := "TestToken", chain := "ethereum" }

/-- artifact for the C1 counterexample: two entries declared `f` and one
declared `f_1`. -/
def cexC1Items : List ABIItem :=
  [funcItemNamed "f", funcItemNamed "f", funcItemNamed "f_1"]

/-- what `Parse` produces on `cexC1Items`: the renamed second `f`
collides with the declared `f_1`. -/
def cexC1Contract : ContractIR :=
  { metadata := exMetadata
    functions :=
      [parsedFnNamed "f" "f" [],
       parsedFnNamed "f" "f_1"
         [("originalName", CVal.s "f"), ("originalSignature", CVal.s "f()")],
       parsedFnNamed "f_1" "f_1" []]
    events := []
    errors := []
    types := [] }

/-- artifact for the C1 witness: the name `g` declared twice. -/
def witC1Items : List ABIItem := [funcItemNamed "g", funcItemNamed "g"]

/-- what `Parse` produces on `witC1Items`. -/
def witC1Contract : ContractIR :=
  { metadata := exMetadata
    functions :=
      [parsedFnNamed "g" "g" [],
       parsedFnNamed "g" "g_1"
         [("originalName", CVal.s "g"), ("originalSignature", CVal.s "g()")]]
    events := []
    errors := []
    types := [] }

def addressType : ParameterType := .mk "address" false 0 false "" [] []
def uint256Type : ParameterType := .mk "uint256" false 0 false "" [] []
def boolType : ParameterType := .mk "bool" false 0 false "" [] []

/-- the tool-exposure scenario IR: one `view` function `balanceOf` and
one `nonpayable` function `transfer`. -/
def exToolIR : ContractIR :=
  { metadata := exMetadata
    functions :=
      [{ name := "balanceOf"
         stateMutability := View
         inputs := [.mk "owner" addressType ""]
         outputs := [.mk "" uint256Type ""] },
       { name := "transfer"
         stateMutability := Nonpayable
         inputs := [.mk "to" addressType "", .mk "value" uint256Type ""]
         outputs := [.mk "" boolType ""] }] }

/-- the validator-completeness scenario IR: empty contract name, empty
chain identifier, and one function with an empty name and an invalid
state-mutability value. -/
def exInvalidIR : ContractIR :=
  { metadata := { name := "", chain := "" }
    functions := [{ name := "", stateMutability := "invalid" }] }

/-- a legacy-format function entry: no `stateMutability`, `constant`
set. -/
def witC6Item : ABIItem := { type := "function", name := "f", constant := true }

/-- the `Function` that `parseFunction` produces for `witC6Item`. -/
def witC6Fn : Function :=
  { name := "f", description := "f", signature := "f()", inputs := [],
    outputs := [], stateMutability := View, visibility := Public,
    chainData := [("constant", CVal.b true)] }

/-- an artifact entry of an unrecognized kind. -/
def witC7Item : ABIItem := { type := "structDef", name := "weird" }

/-- the type the resolver returns for `mapping(uint256)` (no `=>`):
`isMap` is set but `mapKeyType` is empty. -/
def cexC8Type : ParameterType := .mk "mapping(uint256)" false 0 true "" [] []

/-- metadata with an empty chain identifier. -/
def witC9Metadata : ContractMetadata := { name := "TestToken", chain := "" }

/-- what `Parse` returns for an empty artifact and `witC9Metadata`. -/
def witC9Contract : ContractIR :=
  { metadata := { name := "TestToken", chain := "ethereum" }
    functions := []
    events := []
    errors := []
    types := [] }

/-! ### Helper lemmas -/

theorem assocLookup_assocSet_self {α : Type} (m : List (String × α))
    (k : String) (v : α) : assocLookup (assocSet m k v) k = some v := by
  induction m with
  | nil => simp [assocSet, assocLookup]
  | cons kv rest ih =>
    obtain ⟨k', w⟩ := kv
    by_cases h : k' = k
    · simp [assocSet, assocLookup, h]
    · simp [assocSet, assocLookup, h, ih]

theorem assocLookup_assocSet_ne {α : Type} (m : List (String × α))
    (k key : String) (v : α) (h : k ≠ key) :
    assocLookup (assocSet m k v) key = assocLookup m key := by
  induction m with
  | nil => simp [assocSet, assocLookup, h]
  | cons kv rest ih =>
    obtain ⟨k', w⟩ := kv
    by_cases h' : k' = k
    · subst h'
      simp [assocSet, assocLookup, h]
    · simp [assocSet, assocLookup, h', ih]

theorem append_underscore_ne (s t : String) : s ++ "_" ++ t ≠ s := by
  intro h
  have hlen := congrArg String.length h
  simp [String.length_append] at hlen
  have h1 : ("_" : String).length = 1 := rfl
  rw [h1] at hlen
  omega

theorem goTrimSpace_eq_empty_iff (s : String) :
    goTrimSpace s = "" ↔ ∀ c ∈ s.data, goIsSpace c = true := by
  unfold goTrimSpace
  constructor
  · intro h hc
    have hdata : ((s.data.dropWhile goIsSpace).reverse.dropWhile
        goIsSpace).reverse = [] := by
      have := congrArg String.data h
      simpa using this
    rw [List.reverse_eq_nil_iff, List.dropWhile_eq_nil_iff] at hdata
    intro hmem
    by_cases hdw : hc ∈ s.data.dropWhile goIsSpace
    · exact hdata hc (by simpa using hdw)
    · have hsplit := List.takeWhile_append_dropWhile (p := goIsSpace)
        (l := s.data)
      rw [← hsplit] at hmem
      rcases List.mem_append.mp hmem with htk | hdr
      · exact List.mem_takeWhile_imp htk
      · exact absurd hdr hdw
  · intro h
    have h1 : s.data.dropWhile goIsSpace = [] :=
      List.dropWhile_eq_nil_iff.mpr h
    simp [h1]

theorem listIndexOf?_append (l1 pat l2 : List Char) (ch : Char)
    (hhead : pat.head? = some ch) (hmem : ch ∉ l1) :
    listIndexOf? (l1 ++ (pat ++ l2)) pat = some l1.length := by
  induction l1 with
  | nil =>
    have hpre : List.isPrefixOf pat (pat ++ l2) = true :=
      List.isPrefixOf_iff_prefix.mpr (List.prefix_append pat l2)
    rw [List.nil_append, listIndexOf?.eq_def]
    simp [hpre]
  | cons c tl ih =>
    obtain ⟨p0, prest⟩ : ∃ p0 prest, pat = p0 :: prest := by
      cases pat with
      | nil => simp at hhead
      | cons a b => exact ⟨a, b, rfl⟩
    obtain ⟨prest, rfl⟩ := prest
    have hc : p0 = ch := by simpa using hhead
    subst hc
    have hne : p0 ≠ c := fun h => hmem (h ▸ List.mem_cons_self c tl)
    have hpre : List.isPrefixOf (p0 :: prest)
        ((c :: tl) ++ (p0 :: prest ++ l2)) = false := by
      by_contra hcontra
      rw [Bool.not_eq_false, List.isPrefixOf_iff_prefix, List.cons_append,
        List.cons_prefix_cons] at hcontra
      exact hne hcontra.1
    have ihh := ih (fun h => hmem (List.mem_cons_of_mem c h))
    rw [listIndexOf?.eq_def]
    simp only [List.cons_append]
    simp only [List.cons_append] at ihh
    simp [ihh, List.length_cons, List.isPrefixOf_iff_prefix,
      List.cons_prefix_cons]
    intro heq
    exact absurd heq hne

theorem listIndexOf?_eq_none_of_single (l : List Char) (c : Char)
    (h : c ∉ l) : listIndexOf? l [c] = none := by
  induction l with
  | nil =>
    rw [listIndexOf?.eq_def]
    simp [List.isPrefixOf]
  | cons a tl ih =>
    have hne : ([c].isPrefixOf (a :: tl)) = false := by
      by_contra hcontra
      rw [Bool.not_eq_false, List.isPrefixOf_iff_prefix,
        List.cons_prefix_cons] at hcontra
      obtain ⟨rfl, -⟩ := hcontra
      exact h (List.mem_cons_self _ _)
    rw [listIndexOf?.eq_def]
    simp [hne, ih (fun hm => h (List.mem_cons_of_mem a hm))]

theorem strContains_single_false (s : String) (c : Char)
    (h : c ∉ s.data) : strContains s ⟨[c]⟩ = false := by
  simp [strContains, listIndexOf?_eq_none_of_single s.data c h]

theorem strEndsWith_bracket_pair_false (s : String)
    (h : '[' ∉ s.data) : strEndsWith s "[]" = false := by
  unfold strEndsWith
  by_contra hcontra
  rw [Bool.not_eq_false, List.isSuffixOf_iff_suffix] at hcontra
  have hsub : ('[' : Char) ∈ s.data :=
    hcontra.subset (by simp [show ("[]" : String).data = ['[', ']'] from rfl])
  exact h hsub

theorem toString_natCast_int (n : Nat) : toString ((n : Int)) = toString n :=
  rfl

/-- full characterization of a successful `parseFunction` call: flags,
visibility, resolved state-mutability, and the overload-renaming
behaviour against the `functionSignatures` map. -/
theorem parseFunction_spec {p : ABIParser} {item : ABIItem} {f : Function}
    {p' : ABIParser} (h : parseFunction p item = .ok (f, p')) :
    f.isConstructor = false ∧ f.isFallback = false ∧ f.isReceive = false ∧
    f.visibility = Public ∧
    f.stateMutability = (if item.stateMutability = "" then
        (if item.constant then View else if item.payable then Payable
         else Nonpayable)
      else item.stateMutability) ∧
    (match assocLookup p.functionSignatures item.name with
     | none => f.name = item.name ∧
         p'.functionSignatures = assocSet p.functionSignatures item.name 1
     | some count =>
         f.name = item.name ++ "_" ++ toString count ∧
         p'.functionSignatures =
           assocSet p.functionSignatures item.name (count + 1) ∧
         assocLookup f.chainData "originalName" = some (CVal.s item.name) ∧
         assocLookup f.chainData "originalSignature" =
           some (CVal.s (buildFunctionSignature item.name item.inputs))) := by
  unfold parseFunction at h
  cases hin : parseParameters item.inputs with
  | error e => rw [hin] at h; simp at h
  | ok inputs =>
    rw [hin] at h
    cases hout : parseParameters item.outputs with
    | error e => rw [hout] at h; simp at h
    | ok outputs =>
      rw [hout] at h
      cases hlk : assocLookup p.functionSignatures item.name with
      | none =>
        rw [hlk] at h
        simp only [Except.ok.injEq, Prod.mk.injEq] at h
        obtain ⟨hf, hp⟩ := h
        subst hf
        exact ⟨rfl, rfl, rfl, rfl, rfl, rfl,
          congrArg ABIParser.functionSignatures hp.symm⟩
      | some count =>
        rw [hlk] at h
        simp only [Except.ok.injEq, Prod.mk.injEq] at h
        obtain ⟨hf, hp⟩ := h
        subst hf
        have hne := append_underscore_ne item.name (toString count)
        refine ⟨rfl, rfl, rfl, rfl, rfl, rfl,
          congrArg ABIParser.functionSignatures hp.symm, ?_, ?_⟩
        · dsimp only
          rw [if_pos hne]
          rw [assocLookup_assocSet_ne _ _ _ _ (by decide),
            assocLookup_assocSet_self]
        · dsimp only
          rw [if_pos hne]
          rw [assocLookup_assocSet_self]

theorem parseConstructor_flags {item : ABIItem} {f : Function}
    (h : parseConstructor item = .ok f) :
    f.isConstructor = true ∧ f.isFallback = false ∧ f.isReceive = false := by
  unfold parseConstructor at h
  cases hin : parseParameters item.inputs with
  | error e => rw [hin] at h; simp at h
  | ok inputs =>
    rw [hin] at h
    simp only [Except.ok.injEq] at h
    subst h
    exact ⟨rfl, rfl, rfl⟩

theorem parseFallback_flags {item : ABIItem} {f : Function}
    (h : parseFallback item = .ok f) :
    f.isConstructor = false ∧ f.isFallback = true ∧ f.isReceive = false := by
  unfold parseFallback at h
  simp only [Except.ok.injEq] at h
  subst h
  exact ⟨rfl, rfl, rfl⟩

theorem parseReceive_flags {item : ABIItem} {f : Function}
    (h : parseReceive item = .ok f) :
    f.isConstructor = false ∧ f.isFallback = false ∧ f.isReceive = true := by
  unfold parseReceive at h
  simp only [Except.ok.injEq] at h
  subst h
  exact ⟨rfl, rfl, rfl⟩

/-- the overload-renaming invariant carried through the `Parse` loop:
when the `functionSignatures` map agrees with the per-name occurrence
counts, the functions produced from `function` entries are named as the
spec's renaming sequence prescribes, and every renamed one records the
original name and signature in its chain data. -/
theorem parseItems_rename (items : List ABIItem) :
    ∀ (p : ABIParser) (counts : String → Nat),
      (∀ d, assocLookup p.functionSignatures d =
        if counts d = 0 then none else some ((counts d : Int))) →
      ∀ fs es ers p',
        parseItems p items = .ok (fs, es, ers, p') →
        ((fs.filter fromFunctionEntry).map Function.name =
          specRenameSeq counts
            ((items.filter (fun i => i.type == "function")).map
              ABIItem.name)) ∧
        (∀ pr ∈ (items.filter (fun i => i.type == "function")).zip
            (fs.filter fromFunctionEntry),
          pr.2.name ≠ pr.1.name →
            assocLookup pr.2.chainData "originalName" =
              some (CVal.s pr.1.name) ∧
            assocLookup pr.2.chainData "originalSignature" =
              some (CVal.s (buildFunctionSignature pr.1.name pr.1.inputs))) := by
  induction items with
  | nil =>
    intro p counts hinv fs es ers p' h
    simp only [parseItems, Except.ok.injEq, Prod.mk.injEq] at h
    obtain ⟨h1, h2, h3, h4⟩ := h
    subst h1
    simp [specRenameSeq]
  | cons item rest ih =>
    intro p counts hinv fs es ers p' h
    simp only [parseItems] at h
    by_cases hT1 : item.type = "function"
    · rw [if_pos hT1] at h
      cases hpf : parseFunction p item with
      | error e => rw [hpf] at h; simp at h
      | ok fp =>
        obtain ⟨f, p2⟩ := fp
        rw [hpf] at h
        dsimp only at h
        cases hrec : parseItems p2 rest with
        | error e => rw [hrec] at h; simp at h
        | ok out =>
          obtain ⟨fs', es', ers', p''⟩ := out
          rw [hrec] at h
          dsimp only at h
          simp only [Except.ok.injEq, Prod.mk.injEq] at h
          obtain ⟨h1, h2, h3, h4⟩ := h
          subst h1; subst h2; subst h3; subst h4
          obtain ⟨hc1, hc2, hc3, hvis, hmut, hmatch⟩ := parseFunction_spec hpf
          have hff : fromFunctionEntry f = true := by
            simp [fromFunctionEntry, hc1, hc2, hc3]
          have hfilterF : (f :: fs').filter fromFunctionEntry
              = f :: fs'.filter fromFunctionEntry := by
            simp [List.filter_cons, hff]
          have hfilterI :
              ((item :: rest).filter (fun i => i.type == "function"))
              = item :: (rest.filter (fun i => i.type == "function")) := by
            simp [List.filter_cons, hT1]
          rw [hinv item.name] at hmatch
          by_cases hc0 : counts item.name = 0
          · rw [if_pos hc0] at hmatch
            obtain ⟨hname, hsigs⟩ := hmatch
            have hinv2 : ∀ d, assocLookup p2.functionSignatures d =
                if (if d = item.name then counts item.name + 1
                    else counts d) = 0 then none
                else some (((if d = item.name then counts item.name + 1
                    else counts d : Nat) : Int)) := by
              intro d
              rw [hsigs]
              by_cases hd : d = item.name
              · subst hd
                rw [assocLookup_assocSet_self]
                simp [hc0]
              · rw [assocLookup_assocSet_ne _ _ _ _
                  (fun hh => hd hh.symm)]
                simp only [if_neg hd]
                exact hinv d
            obtain ⟨ihnames, ihzip⟩ :=
              ih p2 (fun x => if x = item.name then counts item.name + 1
                else counts x) hinv2 fs' es' ers' p'' hrec
            constructor
            · rw [hfilterF, hfilterI]
              simp only [List.map_cons, specRenameSeq]
              rw [if_pos hc0]
              rw [hname]
              exact congrArg (item.name :: ·) ihnames
            · rw [hfilterF, hfilterI]
              intro pr hpr
              rcases List.mem_cons.mp (by
                  simpa [List.zip_cons_cons] using hpr) with hhd | htl
              · subst hhd
                intro hne
                exact absurd hname hne
              · exact ihzip pr htl
          · rw [if_neg hc0] at hmatch
            obtain ⟨hname, hsigs, hlk1, hlk2⟩ := hmatch
            rw [toString_natCast_int] at hname
            have hinv2 : ∀ d, assocLookup p2.functionSignatures d =
                if (if d = item.name then counts item.name + 1
                    else counts d) = 0 then none
                else some (((if d = item.name then counts item.name + 1
                    else counts d : Nat) : Int)) := by
              intro d
              rw [hsigs]
              by_cases hd : d = item.name
              · subst hd
                rw [assocLookup_assocSet_self]
                simp only [if_pos rfl]
                have hcast : ((counts item.name + 1 : Nat) : Int) =
                    (counts item.name : Int) + 1 := by push_cast; ring
                simp [hcast]
              · rw [assocLookup_assocSet_ne _ _ _ _
                  (fun hh => hd hh.symm)]
                simp only [if_neg hd]
                exact hinv d
            obtain ⟨ihnames, ihzip⟩ :=
              ih p2 (fun x => if x = item.name then counts item.name + 1
                else counts x) hinv2 fs' es' ers' p'' hrec
            constructor
            · rw [hfilterF, hfilterI]
              simp only [List.map_cons, specRenameSeq]
              rw [if_neg hc0]
              rw [hname]
              exact congrArg (_ :: ·) ihnames
            · rw [hfilterF, hfilterI]
              intro pr hpr
              rcases List.mem_cons.mp (by
                  simpa [List.zip_cons_cons] using hpr) with hhd | htl
              · subst hhd
                intro _
                exact ⟨hlk1, hlk2⟩
              · exact ihzip pr htl
    · rw [if_neg hT1] at h
      have hfilterI :
          ((item :: rest).filter (fun i => i.type == "function"))
          = rest.filter (fun i => i.type == "function") := by
        simp [List.filter_cons, hT1]
      by_cases hT2 : item.type = "event"
      · rw [if_pos hT2] at h
        cases hpe : parseEvent item with
        | error e => rw [hpe] at h; simp at h
        | ok ev =>
          rw [hpe] at h
          dsimp only at h
          cases hrec : parseItems p rest with
          | error e => rw [hrec] at h; simp at h
          | ok out =>
            obtain ⟨fs', es', ers', p''⟩ := out
            rw [hrec] at h
            dsimp only at h
            simp only [Except.ok.injEq, Prod.mk.injEq] at h
            obtain ⟨h1, h2, h3, h4⟩ := h
            subst h1; subst h2; subst h3; subst h4
            rw [hfilterI]
            exact ih p counts hinv fs' es' ers' p'' hrec
      · rw [if_neg hT2] at h
        by_cases hT3 : item.type = "error"
        · rw [if_pos hT3] at h
          cases hpe : parseError item with
          | error e => rw [hpe] at h; simp at h
          | ok ce =>
            rw [hpe] at h
            dsimp only at h
            cases hrec : parseItems p rest with
            | error e => rw [hrec] at h; simp at h
            | ok out =>
              obtain ⟨fs', es', ers', p''⟩ := out
              rw [hrec] at h
              dsimp only at h
              simp only [Except.ok.injEq, Prod.mk.injEq] at h
              obtain ⟨h1, h2, h3, h4⟩ := h
              subst h1; subst h2; subst h3; subst h4
              rw [hfilterI]
              exact ih p counts hinv fs' es' ers' p'' hrec
        · rw [if_neg hT3] at h
          by_cases hT4 : item.type = "constructor"
          · rw [if_pos hT4] at h
            cases hpc : parseConstructor item with
            | error e => rw [hpc] at h; simp at h
            | ok f =>
              rw [hpc] at h
              dsimp only at h
              cases hrec : parseItems p rest with
              | error e => rw [hrec] at h; simp at h
              | ok out =>
                obtain ⟨fs', es', ers', p''⟩ := out
                rw [hrec] at h
                dsimp only at h
                simp only [Except.ok.injEq, Prod.mk.injEq] at h
                obtain ⟨h1, h2, h3, h4⟩ := h
                subst h1; subst h2; subst h3; subst h4
                obtain ⟨hfc, -, -⟩ := parseConstructor_flags hpc
                have hff : fromFunctionEntry f = false := by
                  simp [fromFunctionEntry, hfc]
                have hfilterF : (f :: fs').filter fromFunctionEntry
                    = fs'.filter fromFunctionEntry := by
                  simp [List.filter_cons, hff]
                rw [hfilterI, hfilterF]
                exact ih p counts hinv fs' es' ers' p'' hrec
          · rw [if_neg hT4] at h
            by_cases hT5 : item.type = "fallback"
            · rw [if_pos hT5] at h
              cases hpc : parseFallback item with
              | error e => rw [hpc] at h; simp at h
              | ok f =>
                rw [hpc] at h
                dsimp only at h
                cases hrec : parseItems p rest with
                | error e => rw [hrec] at h; simp at h
                | ok out =>
                  obtain ⟨fs', es', ers', p''⟩ := out
                  rw [hrec] at h
                  dsimp only at h
                  simp only [Except.ok.injEq, Prod.mk.injEq] at h
                  obtain ⟨h1, h2, h3, h4⟩ := h
                  subst h1; subst h2; subst h3; subst h4
                  obtain ⟨-, hfc, -⟩ := parseFallback_flags hpc
                  have hff : fromFunctionEntry f = false := by
                    simp [fromFunctionEntry, hfc]
                  have hfilterF : (f :: fs').filter fromFunctionEntry
                      = fs'.filter fromFunctionEntry := by
                    simp [List.filter_cons, hff]
                  rw [hfilterI, hfilterF]
                  exact ih p counts hinv fs' es' ers' p'' hrec
            · rw [if_neg hT5] at h
              by_cases hT6 : item.type = "receive"
              · rw [if_pos hT6] at h
                cases hpc : parseReceive item with
                | error e => rw [hpc] at h; simp at h
                | ok f =>
                  rw [hpc] at h
                  dsimp only at h
                  cases hrec : parseItems p rest with
                  | error e => rw [hrec] at h; simp at h
                  | ok out =>
                    obtain ⟨fs', es', ers', p''⟩ := out
                    rw [hrec] at h
                    dsimp only at h
                    simp only [Except.ok.injEq, Prod.mk.injEq] at h
                    obtain ⟨h1, h2, h3, h4⟩ := h
                    subst h1; subst h2; subst h3; subst h4
                    obtain ⟨-, -, hfc⟩ := parseReceive_flags hpc
                    have hff : fromFunctionEntry f = false := by
                      simp [fromFunctionEntry, hfc]
                    have hfilterF : (f :: fs').filter fromFunctionEntry
                        = fs'.filter fromFunctionEntry := by
                      simp [List.filter_cons, hff]
                    rw [hfilterI, hfilterF]
                    exact ih p counts hinv fs' es' ers' p'' hrec
              · rw [if_neg hT6] at h
                rw [hfilterI]
                exact ih p counts hinv fs es ers p' h

theorem strSlice_middle (l1 l2 l3 : List Char) :
    strSlice ⟨l1 ++ (l2 ++ l3)⟩ l1.length (l1.length + l2.length) = ⟨l2⟩ := by
  unfold strSlice
  have h1 : (l1 ++ (l2 ++ l3)).drop l1.length = l2 ++ l3 :=
    List.drop_left l1 (l2 ++ l3)
  have h2 : l1.length + l2.length - l1.length = l2.length := by omega
  rw [show (⟨l1 ++ (l2 ++ l3)⟩ : String).data = l1 ++ (l2 ++ l3) from rfl,
    h1, h2, List.take_left]

theorem strSlice_left (l1 l2 : List Char) :
    strSlice ⟨l1 ++ l2⟩ 0 l1.length = ⟨l1⟩ := by
  unfold strSlice
  rw [show (⟨l1 ++ l2⟩ : String).data = l1 ++ l2 from rfl]
  simp [List.take_left]

theorem strEndsWith_fixed_array_false (base s : String)
    (hs : s ≠ "") (hlb : '[' ∉ s.data) :
    strEndsWith (base ++ "[" ++ s ++ "]") "[]" = false := by
  unfold strEndsWith
  by_contra hcontra
  rw [Bool.not_eq_false, List.isSuffixOf_iff_suffix] at hcontra
  obtain ⟨t, ht⟩ := hcontra
  have hsd : s.data ≠ [] := by
    intro hnil
    apply hs
    cases s with
    | mk d => simp at hnil; simp [hnil]
  obtain ⟨c, tl, hrev⟩ : ∃ c tl, s.data.reverse = c :: tl := by
    cases hsr : s.data.reverse with
    | nil => exact absurd (List.reverse_eq_nil_iff.mp hsr) hsd
    | cons a b => exact ⟨a, b, rfl⟩
  have hcm : c ∈ s.data := by
    rw [← List.mem_reverse, hrev]
    exact List.mem_cons_self c tl
  have hrl := congrArg List.reverse ht
  rw [List.reverse_append] at hrl
  have hdata : (base ++ "[" ++ s ++ "]").data
      = base.data ++ ('[' :: (s.data ++ [']'])) := by
    simp [String.data_append]
  rw [hdata] at hrl
  simp only [List.reverse_append, List.reverse_cons] at hrl
  simp [hrev] at hrl
  obtain ⟨hc, -⟩ := hrl
  exact hlb (hc ▸ hcm)

theorem strContains_of_indexOf (s sub : String) (n : Nat)
    (h : listIndexOf? s.data sub.data = some n) :
    strContains s sub = true := by
  simp [strContains, h]

theorem strIndex_of_indexOf (s sub : String) (n : Nat)
    (h : listIndexOf? s.data sub.data = some n) :
    strIndex s sub = (n : Int) := by
  simp [strIndex, h]

theorem string_eq_of_data (a : String) (l : List Char) (h : a.data = l) :
    a = ⟨l⟩ := by
  cases a; cases h; rfl

/-- the fixed-size-array error path of `parseParameterType`: a declared
type `base[s]` whose size token `s` does not parse as an integer is
rejected with a resolution error naming `s`. -/
theorem parseParameterType_fixed_size_error (base s : String)
    (hb1 : '[' ∉ base.data) (hb2 : ']' ∉ base.data)
    (hs1 : '[' ∉ s.data) (hs2 : ']' ∉ s.data)
    (hsne : s ≠ "") (hatoi : goAtoi s = none) :
    parseParameterType (base ++ "[" ++ s ++ "]") [] =
      .error ("invalid array size: " ++ s) := by
  have hdata : (base ++ "[" ++ s ++ "]").data
      = base.data ++ (['['] ++ (s.data ++ [']'])) := by
    simp [String.data_append]
  have hIdx1 : listIndexOf? (base ++ "[" ++ s ++ "]").data ['['] =
      some base.data.length := by
    rw [hdata]
    exact listIndexOf?_append base.data ['['] (s.data ++ [']']) '[' rfl hb1
  have hIdx2 : listIndexOf? (base ++ "[" ++ s ++ "]").data [']'] =
      some (base.data.length + (s.data.length + 1)) := by
    have hshape : base.data ++ (['['] ++ (s.data ++ [']']))
        = (base.data ++ '[' :: s.data) ++ ([']'] ++ []) := by
      simp
    rw [hdata, hshape]
    have hmem : ']' ∉ base.data ++ '[' :: s.data := by
      intro hm
      rcases List.mem_append.mp hm with h | h
      · exact hb2 h
      · rcases List.mem_cons.mp h with h | h
        · exact absurd h.symm (by decide)
        · exact hs2 h
    have hidx := listIndexOf?_append (base.data ++ '[' :: s.data) [']'] []
      ']' rfl hmem
    rw [hidx]
    simp
  have hCT : strContains (base ++ "[" ++ s ++ "]") "[" = true :=
    strContains_of_indexOf _ _ _ hIdx1
  have hEW : strEndsWith (base ++ "[" ++ s ++ "]") "[]" = false :=
    strEndsWith_fixed_array_false base s hsne hs1
  have hSI1 : strIndex (base ++ "[" ++ s ++ "]") "[" =
      (base.data.length : Int) :=
    strIndex_of_indexOf _ _ _ hIdx1
  have hSI2 : strIndex (base ++ "[" ++ s ++ "]") "]" =
      ((base.data.length + (s.data.length + 1) : Nat) : Int) :=
    strIndex_of_indexOf _ _ _ hIdx2
  have hSlice : strSlice (base ++ "[" ++ s ++ "]") (base.data.length + 1)
      (base.data.length + (s.data.length + 1)) = s := by
    have hshape : (base ++ "[" ++ s ++ "]") =
        ⟨(base.data ++ ['[']) ++ (s.data ++ [']'])⟩ :=
      string_eq_of_data _ _ (by simp [String.data_append])
    rw [hshape]
    have hmid := strSlice_middle (base.data ++ ['[']) s.data [']']
    have hl1 : (base.data ++ ['[']).length = base.data.length + 1 := by simp
    rw [hl1] at hmid
    have hpos : base.data.length + 1 + s.data.length =
        base.data.length + (s.data.length + 1) := by omega
    rw [hpos] at hmid
    rw [hmid]
  rw [parseParameterType]
  simp only [hEW, hCT, Bool.false_or, Bool.not_false, Bool.and_true,
    Bool.true_and, if_true]
  simp only [hSI1, hSI2]
  have hc1 : ((base.data.length : Int) ≠ -1) := by omega
  have hc2 : (((base.data.length + (s.data.length + 1) : Nat) : Int) ≠ -1) :=
    by omega
  simp only [ne_eq, hc1, not_false_eq_true, hc2, and_self, if_true,
    Int.toNat_natCast]
  rw [hSlice, hatoi]

/-- the mapping-detection path of `parseParameterType` on a well-formed
`mapping(K=>V)` declaration: it is marked as a map, the key type is the
trimmed `K`, and (when `K` has a non-whitespace character) the key type
is non-empty. -/
theorem parseParameterType_mapping_split (K V : String)
    (hK0 : '[' ∉ K.data) (hK1 : '=' ∉ K.data)
    (hV0 : '[' ∉ V.data) (hKb : ∃ c ∈ K.data, ¬goIsSpace c = true) :
    parseParameterType ("mapping(" ++ K ++ "=>" ++ V ++ ")") [] =
      .ok (.mk (goTrimSpace V) false 0 true (goTrimSpace K) [] []) ∧
    goTrimSpace K ≠ "" := by
  have hKtrim : goTrimSpace K ≠ "" := by
    intro h
    obtain ⟨c, hcm, hcs⟩ := hKb
    exact hcs ((goTrimSpace_eq_empty_iff K).mp h c hcm)
  refine ⟨?_, hKtrim⟩
  set T := "mapping(" ++ K ++ "=>" ++ V ++ ")" with hT
  have hdata : T.data =
      ("mapping(" : String).data ++
        (K.data ++ (['=', '>'] ++ (V.data ++ [')']))) := by
    simp [hT, String.data_append]
  have hbr : '[' ∉ T.data := by
    rw [hdata]
    intro hm
    rcases List.mem_append.mp hm with h | h
    · revert h; decide
    · rcases List.mem_append.mp h with h | h
      · exact hK0 h
      · rcases List.mem_append.mp h with h | h
        · revert h; decide
        · rcases List.mem_append.mp h with h | h
          · exact hV0 h
          · revert h; decide
  have hCT : strContains T "[" = false := by
    have hnone := listIndexOf?_eq_none_of_single T.data '[' hbr
    simp [strContains, show ("[" : String).data = ['['] from rfl, hnone]
  have hEW : strEndsWith T "[]" = false := strEndsWith_bracket_pair_false T hbr
  have hSP : strStartsWith T "mapping(" = true := by
    unfold strStartsWith
    rw [hdata]
    exact List.isPrefixOf_iff_prefix.mpr (List.prefix_append _ _)
  have hIdxEq : listIndexOf? T.data ['=', '>'] =
      some (("mapping(" : String).data.length + K.data.length) := by
    have hshape : T.data =
        (("mapping(" : String).data ++ K.data) ++
          (['=', '>'] ++ (V.data ++ [')'])) := by
      rw [hdata]; simp
    rw [hshape]
    have hmem : '=' ∉ ("mapping(" : String).data ++ K.data := by
      intro hm
      rcases List.mem_append.mp hm with h | h
      · revert h; decide
      · exact hK1 h
    have hidx := listIndexOf?_append (("mapping(" : String).data ++ K.data)
      ['=', '>'] (V.data ++ [')']) '=' rfl hmem
    rw [hidx]
    simp
    omega
  have hSIeq : strIndex T "=>" =
      ((("mapping(" : String).data.length + K.data.length : Nat) : Int) := by
    have heq : ("=>" : String).data = ['=', '>'] := rfl
    simp [strIndex, heq, hIdxEq]
  have hTmk : T = ⟨("mapping(" : String).data ++
      (K.data ++ (['=', '>'] ++ (V.data ++ [')'])))⟩ :=
    string_eq_of_data _ _ hdata
  have hSliceK : strSlice T ("mapping(" : String).data.length
      (("mapping(" : String).data.length + K.data.length) = K := by
    rw [hTmk]
    rw [strSlice_middle ("mapping(" : String).data K.data
      (['=', '>'] ++ (V.data ++ [')']))]
  have hSliceV : strSlice T
      (("mapping(" : String).data.length + K.data.length + 2)
      (T.data.length - 1) = V := by
    have hp2 : T.data.length - 1 =
        ("mapping(" : String).data.length + K.data.length + 2 +
          V.data.length := by
      rw [hdata]
      simp
      omega
    rw [hp2]
    have hshape2 : T =
        ⟨(("mapping(" : String).data ++ K.data ++ ['=', '>']) ++
          (V.data ++ [')'])⟩ :=
      string_eq_of_data _ _ (by rw [hdata]; simp)
    rw [hshape2]
    have hmid := strSlice_middle
      (("mapping(" : String).data ++ K.data ++ ['=', '>']) V.data [')']
    have hp1 : (("mapping(" : String).data ++ K.data ++ ['=', '>']).length =
        ("mapping(" : String).data.length + K.data.length + 2 := by
      simp
      omega
    rw [hp1] at hmid
    rw [hmid]
  have hc : ((("mapping(" : String).data.length + K.data.length : Nat) : Int)
      ≠ -1 := by omega
  rw [parseParameterType]
  simp only [hEW, hCT, Bool.or_self, Bool.false_eq_true, if_false,
    List.isEmpty_nil, not_true, and_false, hSP, if_true, hSIeq,
    Int.toNat_natCast, ne_eq, hc, not_false_eq_true, and_self,
    hSliceK, hSliceV]

/-! ### Claim theorems -/

/-- C3: the type resolver maps `"uint256[]"` to base type `uint256`
with `isArray = true`, `arraySize = 0`; maps `"uint256[3]"` to base
type `uint256` with `isArray = true`, `arraySize = 3`; and any declared
type string whose bracketed size token is not numeric is rejected with
a resolution error naming the offending size. -/
theorem c3_array_type_resolution :
    parseParameterType "uint256[]" [] =
      .ok (.mk "uint256" true 0 false "" []
        [("isArray", CVal.b true), ("isDynamicArray", CVal.b true)]) ∧
    parseParameterType "uint256[3]" [] =
      .ok (.mk "uint256" true 3 false "" []
        [("isArray", CVal.b true), ("isFixedArray", CVal.b true),
         ("arraySize", CVal.i 3)]) ∧
    (∀ base s : String, '[' ∉ base.data → ']' ∉ base.data →
      '[' ∉ s.data → ']' ∉ s.data → s ≠ "" → goAtoi s = none →
      parseParameterType (base ++ "[" ++ s ++ "]") [] =
        .error ("invalid array size: " ++ s)) := by
  refine ⟨?_, ?_, fun base s h1 h2 h3 h4 h5 h6 =>
    parseParameterType_fixed_size_error base s h1 h2 h3 h4 h5 h6⟩
  · simp +decide [parseParameterType, strEndsWith, strContains, strIndex,
      listIndexOf?, strSlice, goAtoi, assocSet, strStartsWith]
  · simp +decide [parseParameterType, strEndsWith, strContains, strIndex,
      listIndexOf?, strSlice, goAtoi, assocSet, strStartsWith]

/-- C3 witness: the malformed size in `"uint256[x]"` produces the
resolution error naming `x`. -/
theorem c3_array_type_resolution_witness :
    parseParameterType "uint256[x]" [] = .error "invalid array size: x" :=
  c3_array_type_resolution.2.2 "uint256" "x" (by decide) (by decide)
    (by decide) (by decide) (by decide) (by decide)

/-- C4: on an IR with an empty contract name, an empty chain identifier,
and one function with an empty name and an invalid state-mutability
value, `Validate` returns exactly four findings, one per defect, each
with a distinct field path. -/
theorem c4_validator_completeness :
    ContractIR.Validate exInvalidIR =
      [⟨"Name", "contract name is required"⟩,
       ⟨"Chain", "chain identifier is required"⟩,
       ⟨"Functions[0].Name", "function name is required"⟩,
       ⟨"Functions[0].StateMutability",
        "invalid state mutability: invalid"⟩] ∧
    (ContractIR.Validate exInvalidIR).length = 4 ∧
    ((ContractIR.Validate exInvalidIR).map ValidationError.field).Nodup := by
  have h : ContractIR.Validate exInvalidIR =
      [⟨"Name", "contract name is required"⟩,
       ⟨"Chain", "chain identifier is required"⟩,
       ⟨"Functions[0].Name", "function name is required"⟩,
       ⟨"Functions[0].StateMutability",
        "invalid state mutability: invalid"⟩] := by
    simp +decide [ContractIR.Validate, ContractMetadata.Validate,
      Function.Validate, validateListIndexed, validateParamsIndexed,
      validateStateMutability, validateVisibility, goTrimSpace, goIsSpace,
      exInvalidIR, Pure, View, Nonpayable, Payable]
  refine ⟨h, by rw [h]; rfl, by rw [h]; decide⟩

/-- C5: every artifact entry of kind `receive` normalizes to a
`Function` with `isReceive = true`, name `receive`, empty inputs and
outputs, and state-mutability forced to payable, regardless of the
entry's declared mutability or legacy flags. -/
theorem c5_receive_normalization (item : ABIItem) :
    parseReceive item =
      .ok { name := "receive", description := "Receive function",
            inputs := [], outputs := [], stateMutability := Payable,
            isReceive := true } :=
  rfl

/-- C6: when a function entry's `stateMutability` field is absent, the
resulting `Function` falls back to the legacy flags (`constant` ⇒ view,
else `payable` ⇒ payable, else nonpayable); and every `Function`
produced from a function entry has visibility `public`. -/
theorem c6_legacy_mutability_and_visibility (p : ABIParser)
    (item : ABIItem) (f : Function) (p' : ABIParser)
    (h : parseFunction p item = .ok (f, p')) :
    f.visibility = Public ∧
    (item.stateMutability = "" →
      f.stateMutability = if item.constant then View
        else if item.payable then Payable else Nonpayable) := by
  obtain ⟨-, -, -, hvis, hmut, -⟩ := parseFunction_spec h
  exact ⟨hvis, fun hsm => by rw [hmut, if_pos hsm]⟩

/-- C6 witness: a legacy entry with `constant = true` resolves to view
mutability and public visibility. -/
theorem c6_legacy_mutability_and_visibility_witness :
    witC6Fn.visibility = Public ∧
    (witC6Item.stateMutability = "" →
      witC6Fn.stateMutability = if witC6Item.constant then View
        else if witC6Item.payable then Payable else Nonpayable) :=
  c6_legacy_mutability_and_visibility NewABIParser witC6Item witC6Fn
    ⟨[("f", 1)]⟩ (by
      simp +decide [parseFunction, parseParameters, witC6Item, witC6Fn,
        NewABIParser, buildFunctionSignature, assocLookup, assocSet, View,
        Public, String.intercalate])

/-- C8 counterexample: the resolver returns `isMap = true` with an empty
`mapKeyType` for the declared type `mapping(uint256)` (a mapping base
type without the `=>` separator), refuting the unconditional invariant. -/
theorem c8_counterexample :
    parseParameterType "mapping(uint256)" [] = .ok cexC8Type ∧
    cexC8Type.isMap = true ∧ cexC8Type.mapKeyType = "" := by
  refine ⟨?_, rfl, rfl⟩
  simp +decide [parseParameterType, cexC8Type, strEndsWith, strContains,
    strIndex, listIndexOf?, strSlice, goAtoi, assocSet, strStartsWith,
    goTrimSpace, goIsSpace]

/-- C8 (amended): the resolver marks any `mapping(...)` base type as a
map, and guarantees a non-empty `mapKeyType` exactly for well-formed
declarations: for `mapping(K=>V)` where `K` holds no bracket or `=` and
has a non-whitespace character, the result is a map with
`mapKeyType = trim K ≠ ""` and base type `trim V`. -/
theorem c8_map_key_invariant (K V : String)
    (hK0 : '[' ∉ K.data) (hK1 : '=' ∉ K.data) (hV0 : '[' ∉ V.data)
    (hKb : ∃ c ∈ K.data, ¬goIsSpace c = true) :
    parseParameterType ("mapping(" ++ K ++ "=>" ++ V ++ ")") [] =
      .ok (.mk (goTrimSpace V) false 0 true (goTrimSpace K) [] []) ∧
    goTrimSpace K ≠ "" :=
  parseParameterType_mapping_split K V hK0 hK1 hV0 hKb

/-- C8 witness: `mapping(uint256=>bool)` resolves to a map with key type
`uint256` and base type `bool`. -/
theorem c8_map_key_invariant_witness :
    parseParameterType "mapping(uint256=>bool)" [] =
      .ok (.mk "bool" false 0 true "uint256" [] []) ∧
    ("uint256" : String) ≠ "" :=
  c8_map_key_invariant "uint256" "bool" (by decide) (by decide) (by decide)
    ⟨'u', by decide, by decide⟩

/-- C9: `Parse` substitutes `ethereum` for an empty metadata chain
identifier and keeps a non-empty one unchanged. -/
theorem c9_chain_default (p : ABIParser) (items : List ABIItem)
    (md : ContractMetadata) (c : ContractIR)
    (h : ABIParser.Parse p items md = .ok c) :
    c.metadata.chain = if md.chain = "" then "ethereum" else md.chain := by
  unfold ABIParser.Parse at h
  cases hpi : parseItems p items with
  | error e => rw [hpi] at h; simp at h
  | ok out =>
    obtain ⟨fs, es, ers, p''⟩ := out
    rw [hpi] at h
    dsimp only at h
    simp only [Except.ok.injEq] at h
    subst h
    by_cases hc : md.chain = ""
    · simp [hc]
    · simp [hc]

/-- C9 witness: metadata with an empty chain comes back with chain
`ethereum`. -/
theorem c9_chain_default_witness :
    witC9Contract.metadata.chain =
      if witC9Metadata.chain = "" then "ethereum" else witC9Metadata.chain :=
  c9_chain_default NewABIParser [] witC9Metadata witC9Contract (by
    simp +decide [ABIParser.Parse, parseItems, NewABIParser, witC9Metadata,
      witC9Contract])

/-- C1 counterexample: for the artifact declaring `f`, `f`, `f_1` (so
two function entries share the declared name `f`), `Parse` yields the
function names `f`, `f_1`, `f_1` — the renamed second `f` collides with
the declared `f_1`, so the resulting function names are not unique. -/
theorem c1_counterexample :
    ABIParser.Parse NewABIParser cexC1Items exMetadata = .ok cexC1Contract ∧
    ((cexC1Items.map ABIItem.name).count "f" = 2) ∧
    ¬ ((cexC1Contract.functions.map Function.name).Nodup) := by
  refine ⟨?_, by decide, by decide⟩
  simp +decide [ABIParser.Parse, parseItems, parseFunction, parseParameters,
    cexC1Items, cexC1Contract, funcItemNamed, parsedFnNamed, exMetadata,
    NewABIParser, buildFunctionSignature, assocLookup, assocSet, Nonpayable,
    Public, String.intercalate]

/-- C1 (amended): over the functions produced from `function` entries,
declared names are renamed per the spec's sequence — the first
occurrence keeps its name, the n-th repeat gets `_n` appended, in
declaration order — and every renamed function records the original
declared name and original signature under the fixed chain-data keys
`originalName` and `originalSignature`.  (Global uniqueness of the
resulting names is not guaranteed; see the counterexample.) -/
theorem c1_overload_renaming (items : List ABIItem) (md : ContractMetadata)
    (c : ContractIR) (h : ABIParser.Parse NewABIParser items md = .ok c) :
    ((c.functions.filter fromFunctionEntry).map Function.name =
      specRenameSeq (fun _ => 0)
        ((items.filter (fun i => i.type == "function")).map ABIItem.name)) ∧
    (∀ pr ∈ (items.filter (fun i => i.type == "function")).zip
        (c.functions.filter fromFunctionEntry),
      pr.2.name ≠ pr.1.name →
        assocLookup pr.2.chainData "originalName" =
          some (CVal.s pr.1.name) ∧
        assocLookup pr.2.chainData "originalSignature" =
          some (CVal.s (buildFunctionSignature pr.1.name pr.1.inputs))) := by
  unfold ABIParser.Parse at h
  cases hpi : parseItems NewABIParser items with
  | error e => rw [hpi] at h; simp at h
  | ok out =>
    obtain ⟨fs, es, ers, p''⟩ := out
    rw [hpi] at h
    dsimp only at h
    simp only [Except.ok.injEq] at h
    have hfs : c.functions = fs := by rw [← h]
    rw [hfs]
    exact parseItems_rename items NewABIParser (fun _ => 0)
      (by intro d; simp [NewABIParser, assocLookup]) fs es ers p'' hpi

/-- C1 witness: declaring `g` twice produces `g` and `g_1`, the latter
carrying the original name and signature in its chain data. -/
theorem c1_overload_renaming_witness :
    ((witC1Contract.functions.filter fromFunctionEntry).map Function.name =
      specRenameSeq (fun _ => 0)
        ((witC1Items.filter (fun i => i.type == "function")).map
          ABIItem.name)) ∧
    (∀ pr ∈ (witC1Items.filter (fun i => i.type == "function")).zip
        (witC1Contract.functions.filter fromFunctionEntry),
      pr.2.name ≠ pr.1.name →
        assocLookup pr.2.chainData "originalName" =
          some (CVal.s pr.1.name) ∧
        assocLookup pr.2.chainData "originalSignature" =
          some (CVal.s (buildFunctionSignature pr.1.name pr.1.inputs))) :=
  c1_overload_renaming witC1Items exMetadata witC1Contract (by
    simp +decide [ABIParser.Parse, parseItems, parseFunction,
      parseParameters, witC1Items, witC1Contract, funcItemNamed,
      parsedFnNamed, exMetadata, NewABIParser, buildFunctionSignature,
      assocLookup, assocSet, Nonpayable, Public, String.intercalate])

/-- C2: the rendered service file's tool-name enum members and dispatch
branches exist exactly for the functions whose state-mutability is pure
or view and whose constructor/fallback/receive flags are all false; in
particular, for an IR with a view `balanceOf` and a nonpayable
`transfer`, the dispatch table has exactly the `balanceOf` branch. -/
theorem c2_tool_exposure_filter :
    (∀ (c : ContractIR) (b : String),
      b ∈ serverDispatchCases c ↔
        ∃ f, f ∈ c.functions ∧
          (f.stateMutability = Pure ∨ f.stateMutability = View) ∧
          f.isConstructor = false ∧ f.isFallback = false ∧
          f.isReceive = false ∧
          b = "case ToolName." ++ goToUpper f.name ++ ":") ∧
    (∀ (c : ContractIR) (m : String × String),
      m ∈ serverToolEnumMembers c ↔
        ∃ f, f ∈ c.functions ∧
          (f.stateMutability = Pure ∨ f.stateMutability = View) ∧
          f.isConstructor = false ∧ f.isFallback = false ∧
          f.isReceive = false ∧
          m = (goToUpper f.name, f.name)) ∧
    serverDispatchCases exToolIR = ["case ToolName.BALANCEOF:"] ∧
    serverToolEnumMembers exToolIR = [("BALANCEOF", "balanceOf")] := by
  refine ⟨?_, ?_, ?_, ?_⟩
  · intro c b
    simp only [serverDispatchCases, List.mem_map, List.mem_filter,
      isExposedTool, Bool.and_eq_true, Bool.or_eq_true, beq_iff_eq,
      Bool.not_eq_true']
    constructor
    · rintro ⟨f, ⟨hf, hexp⟩, rfl⟩
      exact ⟨f, hf, by tauto, by tauto, by tauto, by tauto, rfl⟩
    · rintro ⟨f, hf, hm, hc, hfb, hr, rfl⟩
      exact ⟨f, ⟨hf, by tauto⟩, rfl⟩
  · intro c m
    simp only [serverToolEnumMembers, List.mem_map, List.mem_filter,
      isExposedTool, Bool.and_eq_true, Bool.or_eq_true, beq_iff_eq,
      Bool.not_eq_true']
    constructor
    · rintro ⟨f, ⟨hf, hexp⟩, rfl⟩
      exact ⟨f, hf, by tauto, by tauto, by tauto, by tauto, rfl⟩
    · rintro ⟨f, hf, hm, hc, hfb, hr, rfl⟩
      exact ⟨f, ⟨hf, by tauto⟩, rfl⟩
  · decide
  · decide

/-- C7: the `Parse` dispatch loop is unchanged by deleting entries of
unrecognized kinds (so such entries contribute nothing and cause no
error), and an artifact consisting only of unrecognized entries parses
successfully into an IR with no functions, events or errors. -/
theorem c7_unrecognized_kinds_skipped :
    (∀ (p : ABIParser) (items : List ABIItem),
      parseItems p (items.filter (fun i => recognizedABIType i.type)) =
        parseItems p items) ∧
    (∀ (p : ABIParser) (items : List ABIItem) (md : ContractMetadata),
      (∀ i ∈ items, recognizedABIType i.type = false) →
      ABIParser.Parse p items md =
        .ok { metadata := if md.chain = "" then
                { md with chain := "ethereum" } else md,
              functions := [], events := [], errors := [],
              types := [] }) := by
  have hfilter : ∀ (items : List ABIItem) (p : ABIParser),
      parseItems p (items.filter (fun i => recognizedABIType i.type)) =
        parseItems p items := by
    intro items
    induction items with
    | nil => intro p; rfl
    | cons item rest ih =>
      intro p
      by_cases hrec : recognizedABIType item.type = true
      · have hfc : List.filter (fun i => recognizedABIType i.type)
            (item :: rest) =
            item :: List.filter (fun i => recognizedABIType i.type) rest := by
          simp [List.filter_cons, hrec]
        rw [hfc]
        simp only [parseItems]
        simp only [ih]
      · have hrec' : recognizedABIType item.type = false := by
          simpa using hrec
        have hfc : List.filter (fun i => recognizedABIType i.type)
            (item :: rest) =
            List.filter (fun i => recognizedABIType i.type) rest := by
          simp [List.filter_cons, hrec']
        rw [hfc]
        simp only [recognizedABIType, Bool.or_eq_false_iff,
          beq_eq_false_iff_ne, ne_eq] at hrec'
        obtain ⟨⟨⟨⟨⟨h1, h2⟩, h3⟩, h4⟩, h5⟩, h6⟩ := hrec'
        conv_rhs => rw [parseItems]
        rw [if_neg h1, if_neg h2, if_neg h3, if_neg h4, if_neg h5, if_neg h6]
        exact ih p
  refine ⟨fun p items => hfilter items p, ?_⟩
  intro p items md hall
  have hnil : items.filter (fun i => recognizedABIType i.type) = [] :=
    List.filter_eq_nil_iff.mpr (by
      intro i hi
      simp [hall i hi])
  have hpi : parseItems p items = .ok ([], [], [], p) := by
    rw [← hfilter items p, hnil]
    rfl
  unfold ABIParser.Parse
  rw [hpi]

/-- C7 witness: an artifact consisting of a single entry of unknown kind
`structDef` parses successfully into an empty IR. -/
theorem c7_unrecognized_kinds_skipped_witness :
    ABIParser.Parse NewABIParser [witC7Item] exMetadata =
      .ok { metadata := if exMetadata.chain = "" then
              { exMetadata with chain := "ethereum" } else exMetadata,
            functions := [], events := [], errors := [], types := [] } :=
  c7_unrecognized_kinds_skipped.2 NewABIParser [witC7Item] exMetadata
    (by decide)

/-- C10: the validator judges required names after trimming whitespace:
a metadata name, chain identifier, function name, event name or event
parameter name consisting solely of whitespace produces the same
findings — including the required-field finding — as the empty string. -/
theorem c10_whitespace_only_names (s : String)
    (hs : ∀ c ∈ s.data, goIsSpace c = true) :
    (∀ m : ContractMetadata,
      ContractMetadata.Validate { m with name := s } =
        ContractMetadata.Validate { m with name := "" } ∧
      (⟨"Name", "contract name is required"⟩ : ValidationError) ∈
        ContractMetadata.Validate { m with name := s }) ∧
    (∀ m : ContractMetadata,
      ContractMetadata.Validate { m with chain := s } =
        ContractMetadata.Validate { m with chain := "" } ∧
      (⟨"Chain", "chain identifier is required"⟩ : ValidationError) ∈
        ContractMetadata.Validate { m with chain := s }) ∧
    (∀ f : Function,
      Function.Validate { f with name := s } =
        Function.Validate { f with name := "" } ∧
      (⟨"Name", "function name is required"⟩ : ValidationError) ∈
        Function.Validate { f with name := s }) ∧
    (∀ e : Event,
      Event.Validate { e with name := s } =
        Event.Validate { e with name := "" } ∧
      (⟨"Name", "event name is required"⟩ : ValidationError) ∈
        Event.Validate { e with name := s }) ∧
    (∀ p : EventParameter,
      EventParameter.Validate { p with name := s } =
        EventParameter.Validate { p with name := "" } ∧
      (⟨"Name", "parameter name is required"⟩ : ValidationError) ∈
        EventParameter.Validate { p with name := s }) := by
  have htrim : goTrimSpace s = "" := (goTrimSpace_eq_empty_iff s).mpr hs
  refine ⟨fun m => ⟨?_, ?_⟩, fun m => ⟨?_, ?_⟩, fun f => ⟨?_, ?_⟩,
    fun e => ⟨?_, ?_⟩, fun p => ⟨?_, ?_⟩⟩ <;>
    simp [ContractMetadata.Validate, Function.Validate, Event.Validate,
      EventParameter.Validate, htrim, show goTrimSpace "" = "" from rfl]

/-- C10 witness: a one-space contract name validates exactly like the
empty name and yields the required-name finding. -/
theorem c10_whitespace_only_names_witness :
    ContractMetadata.Validate { name := " ", chain := "c" } =
      ContractMetadata.Validate { name := "", chain := "c" } ∧
    (⟨"Name", "contract name is required"⟩ : ValidationError) ∈
      ContractMetadata.Validate { name := " ", chain := "c" } :=
  (c10_whitespace_only_names " " (by decide)).1 { name := "x", chain := "c" }

end MCPGen
